import Mathlib

/-!
Verification development for the JMAP `Email/import` request parsing and
response assembly code in `crates/jmap-proto/src/method/import.rs`
(Stalwart mail-server).

The token-stream parser, `VecMap`, `SetValueMap`, `ResultReference` and the
serde serialization machinery live in other crates; where a definition below
embeds one of those collaborators it is modelled from the specification and
says so in its doc comment.  The two `JsonObjectParser` implementations and
`update_created_ids` are translated directly from the source file.
-/

set_option maxHeartbeats 1000000

namespace MailImport

/-- Modelled from the spec: the token stream handed over by the external
JSON tokenizer (§6 "Token-stream parser").  Dictionary keys arrive as
string tokens. -/
inductive Token where
  | dictStart
  | dictEnd
  | arrayStart
  | arrayEnd
  | str (s : String)
  | num (n : Int)
  | boolean (b : Bool)
  | null
deriving DecidableEq, Repr

/-- Modelled from the spec: the typed parse failure (§7 "ParseFailure").
`invalidType f` is the error produced by `unwrap_string`/`unwrap_string_or_null`
for field `f`; `expectedDictStart` by the `assert_jmap(Token::DictStart)`
check; `unexpectedEnd`/`invalidKey` by the tokenizer collaborator. -/
inductive ParseError where
  | expectedDictStart
  | invalidType (field : String)
  | unexpectedEnd
  | invalidKey
deriving DecidableEq, Repr

/-- Result type of every parsing step: a typed failure, or the parsed value
together with the unconsumed remainder of the token stream. -/
abbrev PResult (α : Type) := Except ParseError (α × List Token)

/-- Opaque JMAP identifier (`types::id::Id`); its wire form is a string. -/
structure Id where
  value : String
deriving DecidableEq, Repr

instance : Inhabited Id := ⟨⟨""⟩⟩

/-- Opaque blob identifier (`types::blob::BlobId`); wire form is a string. -/
structure BlobId where
  value : String
deriving DecidableEq, Repr

instance : Inhabited BlobId := ⟨⟨""⟩⟩

/-- Opaque state token (`types::state::State`); wire form is a string. -/
structure State where
  value : String
deriving DecidableEq, Repr

/-- Opaque date (`types::date::UTCDate`); wire form is a string. -/
structure UTCDate where
  value : String
deriving DecidableEq, Repr

/-- Opaque keyword (`types::keyword::Keyword`); wire form is a string. -/
structure Keyword where
  value : String
deriving DecidableEq, Repr

/-- `request::reference::MaybeReference<V, R>`: either an immediate value or
a reference to a prior method call's result (spec §2 "DeferredValue"). -/
inductive MaybeReference (V : Type) (R : Type) where
  | Value (v : V)
  | Reference (r : R)
deriving DecidableEq, Repr

/-- Modelled from the spec: `ReferencePointer = { resultOfCreationId, path }`
(§3); embeds `request::reference::ResultReference`. -/
structure ResultReference where
  result_of : String
  path : String
deriving DecidableEq, Repr

/-- Modelled from the spec: `OrderedStringMap` (§4.3) — an insertion-order
preserving association list; embeds `utils::map::vec_map::VecMap`. -/
structure VecMap (K : Type) (V : Type) where
  entries : List (K × V)
deriving DecidableEq, Repr

namespace VecMap

/-- `VecMap::new()`. -/
def new {K V : Type} : VecMap K V := ⟨[]⟩

/-- `VecMap::is_empty`. -/
def is_empty {K V : Type} (m : VecMap K V) : Bool := m.entries.isEmpty

/-- Modelled from the spec (§4.3): keyed insertion that replaces the value
when the key is already present and otherwise appends, preserving first-seen
order. -/
def insert {K V : Type} [DecidableEq K] (m : VecMap K V) (k : K) (v : V) :
    VecMap K V :=
  ⟨insertEntries m.entries k v⟩
where
  insertEntries {K V : Type} [DecidableEq K] :
      List (K × V) → K → V → List (K × V)
    | [], k, v => [(k, v)]
    | (k', v') :: rest, k, v =>
      if k' = k then (k, v) :: rest
      else (k', v') :: insertEntries rest k v

/-- Append a fresh entry at the end (`VecMap::append`); callers guarantee the
key is not already present (spec §4.3 caller discipline). -/
def append {K V : Type} (m : VecMap K V) (k : K) (v : V) : VecMap K V :=
  ⟨m.entries ++ [(k, v)]⟩

/-- Key lookup. -/
def get {K V : Type} [DecidableEq K] (m : VecMap K V) (k : K) : Option V :=
  (m.entries.find? (fun e => e.1 = k)).map (·.2)

end VecMap

/-- Little-endian base-256 value of a list of byte values, as the Rust
parser packs key bytes into the `u128` `hash[0]`. -/
def leVal : List Nat → Nat
  | [] => 0
  | b :: bs => b + 256 * leVal bs

/-- The packed integer for a raw key name: its first 16 characters,
little-endian (the source's `key.hash[0]` constants follow this packing). -/
def keyHash (s : String) : Nat :=
  leVal ((s.data.take 16).map Char.toNat)

/-- `request::RequestProperty`: a parsed dictionary key, as the packed
integer hash of the base name plus the reference-marker flag. -/
structure RequestProperty where
  hash : Nat
  is_ref : Bool
deriving DecidableEq, Repr

deriving instance DecidableEq for Except

/-- Modelled from the spec (§4.1, §6): a raw key is split into its base name
and the reference flag, the flag set exactly when the key carries the fixed
`#ref` marker as a suffix. -/
def splitRefMarker (s : String) : String × Bool :=
  if 4 ≤ s.data.length ∧ s.data.drop (s.data.length - 4) = ['#', 'r', 'e', 'f']
  then (⟨s.data.take (s.data.length - 4)⟩, true)
  else (s, false)

/-- Build the `RequestProperty` the tokenizer hands to the parse loops for a
raw key string. -/
def RequestProperty.ofString (s : String) : RequestProperty :=
  ⟨keyHash (splitRefMarker s).1, (splitRefMarker s).2⟩

/-- Modelled from the spec (§6): `nextToken()` of the tokenizer
collaborator — the next token of the stream, or a failure at end of
input. -/
def next_token : List Token → PResult Token
  | [] => .error .unexpectedEnd
  | t :: ts => .ok (t, ts)

/-- `Token::unwrap_string(field)`: the token must be the string form of the
field's declared type; anything else is a typed parse failure naming the
field. -/
def Token.unwrap_string (t : Token) (field : String) :
    Except ParseError String :=
  match t with
  | .str s => .ok s
  | _ => .error (.invalidType field)

/-- `Token::unwrap_string_or_null(field)`: like `unwrap_string` but an
explicit `null` yields the unset value instead of failing. -/
def Token.unwrap_string_or_null (t : Token) (field : String) :
    Except ParseError (Option String) :=
  match t with
  | .str s => .ok (some s)
  | .null => .ok none
  | _ => .error (.invalidType field)

/-- `Token::assert_jmap(Token::DictStart)`: the token must open an
object. -/
def Token.assert_dict_start (t : Token) : Except ParseError Unit :=
  match t with
  | .dictStart => .ok ()
  | _ => .error .expectedDictStart

/-- Modelled from the spec (§6): `nextObjectKey()` — `none` at the object's
closing delimiter, otherwise the next key packaged as a `RequestProperty`. -/
def next_dict_key : List Token → PResult (Option RequestProperty)
  | [] => .error .unexpectedEnd
  | .dictEnd :: ts => .ok (none, ts)
  | .str s :: ts => .ok (some (RequestProperty.ofString s), ts)
  | _ :: _ => .error .invalidKey

/-- Does the token open a nested value? -/
def Token.isOpen : Token → Bool
  | .dictStart => true
  | .arrayStart => true
  | _ => false

/-- Does the token close a nested value? -/
def Token.isClose : Token → Bool
  | .dictEnd => true
  | .arrayEnd => true
  | _ => false

/-- Modelled from the spec (§4.1, §6): the worker behind `skipValue()` —
consume tokens, tracking nesting depth, until one whole value (scalar,
array, or nested object) has been discarded. -/
def skipBalanced : List Token → Nat → PResult Unit
  | [], _ => .error .unexpectedEnd
  | t :: ts, depth =>
    if t.isClose ∧ depth = 0 then .error .invalidKey
    else
      let depth' := if t.isOpen then depth + 1
                    else if t.isClose then depth - 1 else depth
      if depth' = 0 then .ok ((), ts)
      else skipBalanced ts depth'

/-- `parser.skip_token(..)`: consume and discard exactly the token span of
the next value. -/
def skip_token (ts : List Token) : PResult Unit :=
  skipBalanced ts 0

/-- Modelled from the spec: `SetValueMap<T>` parsing of a collection-valued
field — the wire form is an array of strings decoded in order (§8 concrete
scenario: `mailboxIds:["M1"]`, `keywords:["$seen"]`). -/
def parseStringList : List Token → PResult (List String)
  | [] => .error .unexpectedEnd
  | .arrayStart :: ts => parseStringListTail ts
  | _ :: _ => .error (.invalidType "array")
where
  parseStringListTail : List Token → PResult (List String)
    | [] => .error .unexpectedEnd
    | .arrayEnd :: ts => .ok ([], ts)
    | .str s :: ts =>
      match parseStringListTail ts with
      | .error e => .error e
      | .ok (l, rest) => .ok (s :: l, rest)
    | _ :: _ => .error (.invalidType "string")

/-- Modelled from the spec (§3): a container reference string is either a
client creation id — recognized by the creation marker `#` — or a
server-assigned id; the `MaybeReference<Id, String>` element decoder. -/
def parseIdOrCreation (s : String) : MaybeReference Id String :=
  match s.data with
  | '#' :: rest => .Reference ⟨rest⟩
  | _ => .Value ⟨s⟩

/-- Modelled from the spec (§3): `ResultReference::parse` — a reference
pointer object `{resultOfCreationId, path}` with string-valued fields,
unrecognized string-valued fields ignored. -/
def ResultReference.parse : List Token → PResult ResultReference
  | [] => .error .unexpectedEnd
  | .dictStart :: ts => parseFieldsFrom ⟨"", ""⟩ ts
  | _ :: _ => .error .expectedDictStart
where
  parseFieldsFrom (acc : ResultReference) : List Token → PResult ResultReference
    | [] => .error .unexpectedEnd
    | .dictEnd :: ts => .ok (acc, ts)
    | .str k :: .str v :: ts =>
      if k = "resultOf" then parseFieldsFrom { acc with result_of := v } ts
      else if k = "path" then parseFieldsFrom { acc with path := v } ts
      else parseFieldsFrom acc ts
    | _ :: _ => .error .invalidKey

/-- `ImportEmail` (import.rs lines 53-59). -/
structure ImportEmail where
  blob_id : BlobId
  mailbox_ids : MaybeReference (List (MaybeReference Id String)) ResultReference
  keywords : List Keyword
  received_at : Option UTCDate
deriving DecidableEq, Repr

/-- `ImportEmailRequest` (import.rs lines 46-51). -/
structure ImportEmailRequest where
  account_id : Id
  if_in_state : Option State
  emails : VecMap String ImportEmail
deriving DecidableEq, Repr

/-- The decoders a top-level key of `ImportEmailRequest::parse` can be routed
to. -/
inductive ReqField where
  | accountId
  | ifInState
  | emails
  | unknown
deriving DecidableEq, Repr

/-- Branch selection of `ImportEmailRequest::parse` (import.rs lines
101-116): the Rust `match` on `key.hash[0]` whose arms carry `if !key.is_ref`
guards; a key whose hash matches but whose guard fails falls through to the
wildcard (skip) arm, exactly as in Rust `match` semantics. -/
def reqFieldOfKey (key : RequestProperty) : ReqField :=
  if key.hash = 0x006449746e756f636361 ∧ key.is_ref = false then .accountId
  else if key.hash = 0x0065746174536e496669 ∧ key.is_ref = false then .ifInState
  else if key.hash = 0x736c69616d65 ∧ key.is_ref = false then .emails
  else .unknown

/-- The string-keyed dispatch the spec prescribes for the top-level object
(§9 "Hashed-key dispatch": behavior must be identical to a string-keyed
match): compare the raw key's base name by string equality and route by the
reference flag. -/
def reqFieldOfName (s : String) : ReqField :=
  if (splitRefMarker s).1 = "accountId" ∧ (splitRefMarker s).2 = false then
    .accountId
  else if (splitRefMarker s).1 = "ifInState" ∧ (splitRefMarker s).2 = false then
    .ifInState
  else if (splitRefMarker s).1 = "emails" ∧ (splitRefMarker s).2 = false then
    .emails
  else .unknown

/-- The decoders an item-object key of `ImportEmail::parse` can be routed
to; the two forms of `mailboxIds` go to two different decoders. -/
inductive EmailField where
  | blobId
  | mailboxIdsValue
  | mailboxIdsRef
  | keywords
  | receivedAt
  | unknown
deriving DecidableEq, Repr

/-- Branch selection of `ImportEmail::parse` (import.rs lines 140-164): the
Rust `match` on `key.hash[0]` — the `mailboxIds` arm has no `is_ref` guard
and branches on `key.is_ref` inside; every other arm is guarded by
`!key.is_ref` and falls through to the wildcard (skip) arm when the guard
fails. -/
def emailFieldOfKey (key : RequestProperty) : EmailField :=
  if key.hash = 0x6449626f6c62 ∧ key.is_ref = false then .blobId
  else if key.hash = 0x736449786f626c69616d then
    if key.is_ref = false then .mailboxIdsValue else .mailboxIdsRef
  else if key.hash = 0x7364726f7779656b ∧ key.is_ref = false then .keywords
  else if key.hash = 0x74416465766965636572 ∧ key.is_ref = false then
    .receivedAt
  else .unknown

/-- The string-keyed dispatch the spec prescribes for the item object (§9):
compare the raw key's base name by string equality and route by the
reference flag. -/
def emailFieldOfName (s : String) : EmailField :=
  if (splitRefMarker s).1 = "blobId" ∧ (splitRefMarker s).2 = false then
    .blobId
  else if (splitRefMarker s).1 = "mailboxIds" then
    if (splitRefMarker s).2 = false then .mailboxIdsValue else .mailboxIdsRef
  else if (splitRefMarker s).1 = "keywords" ∧ (splitRefMarker s).2 = false then
    .keywords
  else if (splitRefMarker s).1 = "receivedAt" ∧ (splitRefMarker s).2 = false then
    .receivedAt
  else .unknown

example : keyHash "accountId" = 0x006449746e756f636361 := by decide
example : keyHash "ifInState" = 0x0065746174536e496669 := by decide
example : keyHash "emails" = 0x736c69616d65 := by decide
example : keyHash "blobId" = 0x6449626f6c62 := by decide
example : keyHash "mailboxIds" = 0x736449786f626c69616d := by decide
example : keyHash "keywords" = 0x7364726f7779656b := by decide
example : keyHash "receivedAt" = 0x74416465766965636572 := by decide


example : RequestProperty.ofString "accountId#ref" = ⟨keyHash "accountId", true⟩ := by decide
example : RequestProperty.ofString "mailboxIds" = ⟨keyHash "mailboxIds", false⟩ := by decide
example : skip_token [.str "X", .dictEnd] = .ok ((), [.dictEnd]) := by decide
example : skip_token [.dictStart, .str "a", .num 3, .dictEnd, .null] = .ok ((), [.null]) := by decide

/-- The per-key step of `ImportEmail::parse` (import.rs lines 140-164): one
arm of the key dispatch, updating the partially-filled item and returning
the unconsumed remainder of the stream. -/
def ImportEmail.parseField (st : ImportEmail) (key : RequestProperty)
    (ts : List Token) : PResult ImportEmail :=
  match emailFieldOfKey key with
  | .blobId =>
    match next_token ts with
    | .error e => .error e
    | .ok (t, ts1) =>
      match t.unwrap_string "blobId" with
      | .error e => .error e
      | .ok s => .ok ({ st with blob_id := ⟨s⟩ }, ts1)
  | .mailboxIdsValue =>
    match parseStringList ts with
    | .error e => .error e
    | .ok (l, ts1) =>
      .ok ({ st with mailbox_ids := .Value (l.map parseIdOrCreation) }, ts1)
  | .mailboxIdsRef =>
    match ResultReference.parse ts with
    | .error e => .error e
    | .ok (r, ts1) => .ok ({ st with mailbox_ids := .Reference r }, ts1)
  | .keywords =>
    match parseStringList ts with
    | .error e => .error e
    | .ok (l, ts1) => .ok ({ st with keywords := l.map (⟨·⟩) }, ts1)
  | .receivedAt =>
    match next_token ts with
    | .error e => .error e
    | .ok (t, ts1) =>
      match t.unwrap_string_or_null "receivedAt" with
      | .error e => .error e
      | .ok s => .ok ({ st with received_at := s.map (⟨·⟩) }, ts1)
  | .unknown =>
    match skip_token ts with
    | .error e => .error e
    | .ok (_, ts1) => .ok (st, ts1)

/-- `next_token` leaves a strictly shorter stream on success. -/
theorem next_token_length {ts rest : List Token} {t : Token}
    (h : next_token ts = .ok (t, rest)) : rest.length < ts.length := by
  cases ts with
  | nil => simp [next_token] at h
  | cons a ts' =>
    simp [next_token] at h
    obtain ⟨rfl, rfl⟩ := h
    simp

/-- `next_dict_key` leaves a strictly shorter stream on success. -/
theorem next_dict_key_length {ts rest : List Token} {o : Option RequestProperty}
    (h : next_dict_key ts = .ok (o, rest)) : rest.length < ts.length := by
  cases ts with
  | nil => simp [next_dict_key] at h
  | cons a ts' =>
    cases a <;> simp [next_dict_key] at h <;>
      (obtain ⟨-, rfl⟩ := h; simp)

/-- `skipBalanced` leaves a strictly shorter stream on success. -/
theorem skipBalanced_length :
    ∀ (ts : List Token) (d : Nat) {u : Unit} {rest : List Token},
      skipBalanced ts d = .ok (u, rest) → rest.length < ts.length := by
  intro ts
  induction ts with
  | nil => intro d u rest h; simp [skipBalanced] at h
  | cons t ts' ih =>
    intro d u rest h
    simp only [skipBalanced] at h
    repeat' split at h
    all_goals
      first
        | (simp at h; subst h; simp)
        | (exact lt_trans (ih _ h) (by simp))
        | simp at h

/-- `skip_token` leaves a strictly shorter stream on success. -/
theorem skip_token_length {ts rest : List Token} {u : Unit}
    (h : skip_token ts = .ok (u, rest)) : rest.length < ts.length :=
  skipBalanced_length ts 0 h

/-- The string-array tail parser leaves a strictly shorter stream on
success. -/
theorem parseStringListTail_length :
    ∀ (ts : List Token) {l : List String} {rest : List Token},
      parseStringList.parseStringListTail ts = .ok (l, rest) →
        rest.length < ts.length := by
  intro ts
  induction ts with
  | nil =>
    intro l rest h
    simp [parseStringList.parseStringListTail] at h
  | cons t ts' ih =>
    intro l rest h
    cases t with
    | dictStart => simp [parseStringList.parseStringListTail] at h
    | dictEnd => simp [parseStringList.parseStringListTail] at h
    | arrayStart => simp [parseStringList.parseStringListTail] at h
    | arrayEnd =>
      simp [parseStringList.parseStringListTail] at h
      obtain ⟨-, rfl⟩ := h
      simp
    | str s =>
      simp only [parseStringList.parseStringListTail] at h
      rcases hrec : parseStringList.parseStringListTail ts' with e | ⟨l', rest'⟩
      · rw [hrec] at h; simp at h
      · rw [hrec] at h
        simp at h
        obtain ⟨-, rfl⟩ := h
        exact lt_trans (ih hrec) (by simp)
    | num n => simp [parseStringList.parseStringListTail] at h
    | boolean b => simp [parseStringList.parseStringListTail] at h
    | null => simp [parseStringList.parseStringListTail] at h

/-- `parseStringList` leaves a strictly shorter stream on success. -/
theorem parseStringList_length {ts rest : List Token} {l : List String}
    (h : parseStringList ts = .ok (l, rest)) : rest.length < ts.length := by
  cases ts with
  | nil => simp [parseStringList] at h
  | cons t ts' =>
    cases t <;> simp [parseStringList] at h
    have := parseStringListTail_length ts' h
    simp
    omega

/-- Fuel-indexed form: the reference-pointer field loop leaves a strictly
shorter stream on success. -/
theorem parseFieldsFrom_length_aux :
    ∀ (n : Nat) (ts : List Token), ts.length ≤ n →
      ∀ (acc : ResultReference) {r : ResultReference} {rest : List Token},
        ResultReference.parse.parseFieldsFrom acc ts = .ok (r, rest) →
          rest.length < ts.length := by
  intro n
  induction n with
  | zero =>
    intro ts hts acc r rest h
    cases ts with
    | nil => simp [ResultReference.parse.parseFieldsFrom] at h
    | cons t ts' => simp at hts
  | succ n ih =>
    intro ts hts acc r rest h
    rw [ResultReference.parse.parseFieldsFrom.eq_def] at h
    split at h
    · simp at h
    · simp at h
      obtain ⟨-, rfl⟩ := h
      simp
    · split at h
      · have := ih _ (by simp at hts ⊢; omega) _ h
        simp
        omega
      · split at h
        · have := ih _ (by simp at hts ⊢; omega) _ h
          simp
          omega
        · have := ih _ (by simp at hts ⊢; omega) _ h
          simp
          omega
    · simp at h

/-- The reference-pointer field loop leaves a strictly shorter stream on
success. -/
theorem parseFieldsFrom_length {ts : List Token} {acc r : ResultReference}
    {rest : List Token}
    (h : ResultReference.parse.parseFieldsFrom acc ts = .ok (r, rest)) :
    rest.length < ts.length :=
  parseFieldsFrom_length_aux ts.length ts le_rfl acc h

/-- `ResultReference::parse` leaves a strictly shorter stream on success. -/
theorem resultReferenceParse_length {ts rest : List Token}
    {r : ResultReference} (h : ResultReference.parse ts = .ok (r, rest)) :
    rest.length < ts.length := by
  cases ts with
  | nil => simp [ResultReference.parse] at h
  | cons t ts' =>
    cases t <;> simp [ResultReference.parse] at h
    have := parseFieldsFrom_length h
    simp
    omega


/-- `ImportEmail.parseField` leaves a strictly shorter stream on success. -/
theorem emailParseField_length {st st' : ImportEmail}
    {key : RequestProperty} {ts rest : List Token}
    (h : ImportEmail.parseField st key ts = .ok (st', rest)) :
    rest.length < ts.length := by
  unfold ImportEmail.parseField at h
  split at h <;> repeat' split at h
  all_goals
    solve
      | simp at h
      | (simp at h
         obtain ⟨-, rfl⟩ := h
         solve
           | exact next_token_length (by assumption)
           | exact parseStringList_length (by assumption)
           | exact resultReferenceParse_length (by assumption)
           | exact skip_token_length (by assumption))

/-- The `while let Some(key) = parser.next_dict_key::<RequestProperty>()`
loop of `ImportEmail::parse` (import.rs lines 139-165). -/
def ImportEmail.parseLoop (st : ImportEmail) (ts : List Token) :
    PResult ImportEmail :=
  match h1 : next_dict_key ts with
  | .error e => .error e
  | .ok (none, ts1) => .ok (st, ts1)
  | .ok (some key, ts1) =>
    match h2 : ImportEmail.parseField st key ts1 with
    | .error e => .error e
    | .ok (st', ts2) => ImportEmail.parseLoop st' ts2
termination_by ts.length
decreasing_by
  exact lt_trans (emailParseField_length h2) (next_dict_key_length h1)

/-- `ImportEmail::parse` (import.rs lines 123-168): the defaults for every
field, the opening-delimiter assertion, then the key-dispatch loop. -/
def ImportEmail.parse (ts : List Token) : PResult ImportEmail :=
  let st : ImportEmail :=
    { blob_id := default
      mailbox_ids := .Value []
      keywords := []
      received_at := none }
  match next_token ts with
  | .error e => .error e
  | .ok (t, ts1) =>
    match t.assert_dict_start with
    | .error e => .error e
    | .ok _ => ImportEmail.parseLoop st ts1

/-- Fuel-indexed form: the item-object key loop leaves a strictly shorter
stream on success. -/
theorem ImportEmail.parseLoop_length_aux :
    ∀ (n : Nat) (ts : List Token), ts.length ≤ n →
      ∀ (st : ImportEmail) {v : ImportEmail} {rest : List Token},
        ImportEmail.parseLoop st ts = .ok (v, rest) →
          rest.length < ts.length := by
  intro n
  induction n with
  | zero =>
    intro ts hts st v rest h
    cases ts with
    | nil => simp [ImportEmail.parseLoop, next_dict_key] at h
    | cons t ts' => simp at hts
  | succ n ih =>
    intro ts hts st v rest h
    rw [ImportEmail.parseLoop.eq_def] at h
    split at h
    · simp at h
    · rename_i ts1 h1
      simp at h
      obtain ⟨-, rfl⟩ := h
      exact next_dict_key_length h1
    · rename_i key ts1 h1
      split at h
      · simp at h
      · rename_i st' ts2 h2
        have hts1 := next_dict_key_length h1
        have hts2 := emailParseField_length h2
        have := ih ts2 (by omega) st' h
        omega

/-- The item-object key loop leaves a strictly shorter stream on success. -/
theorem ImportEmail.parseLoop_length {st v : ImportEmail}
    {ts rest : List Token} (h : ImportEmail.parseLoop st ts = .ok (v, rest)) :
    rest.length < ts.length :=
  ImportEmail.parseLoop_length_aux ts.length ts le_rfl st h

/-- `ImportEmail::parse` leaves a strictly shorter stream on success. -/
theorem emailParse_length {v : ImportEmail} {ts rest : List Token}
    (h : ImportEmail.parse ts = .ok (v, rest)) : rest.length < ts.length := by
  unfold ImportEmail.parse at h
  split at h
  · simp at h
  · rename_i t ts1 h1
    split at h
    · simp at h
    · exact lt_trans (ImportEmail.parseLoop_length h) (next_token_length h1)

/-- The entry loop of the batch-map parser: keys in client-given order, each
value parsed with `ImportEmail::parse`. -/
def parseEmailMapLoop (m : VecMap String ImportEmail) (ts : List Token) :
    PResult (VecMap String ImportEmail) :=
  match ts with
  | [] => .error .unexpectedEnd
  | .dictEnd :: ts1 => .ok (m, ts1)
  | .str k :: ts1 =>
    match h2 : ImportEmail.parse ts1 with
    | .error e => .error e
    | .ok (v, ts2) => parseEmailMapLoop (m.append k v) ts2
  | _ :: _ => .error .invalidKey
termination_by ts.length
decreasing_by
  exact lt_trans (emailParse_length h2) (by simp)

/-- Modelled from the spec (§3, §4.3): `<VecMap<String, ImportEmail>>::parse`
— the per-item batch is a JSON object whose keys are client creation ids and
whose values are item objects, collected in client-given order. -/
def parseEmailMap (ts : List Token) : PResult (VecMap String ImportEmail) :=
  match next_token ts with
  | .error e => .error e
  | .ok (t, ts1) =>
    match t.assert_dict_start with
    | .error e => .error e
    | .ok _ => parseEmailMapLoop VecMap.new ts1

/-- Fuel-indexed form: the batch-map loop leaves a strictly shorter stream
on success. -/
theorem parseEmailMapLoop_length_aux :
    ∀ (n : Nat) (ts : List Token), ts.length ≤ n →
      ∀ (m : VecMap String ImportEmail) {v : VecMap String ImportEmail}
        {rest : List Token},
        parseEmailMapLoop m ts = .ok (v, rest) → rest.length < ts.length := by
  intro n
  induction n with
  | zero =>
    intro ts hts m v rest h
    cases ts with
    | nil => simp [parseEmailMapLoop] at h
    | cons t ts' => simp at hts
  | succ n ih =>
    intro ts hts m v rest h
    rw [parseEmailMapLoop.eq_def] at h
    split at h
    · simp at h
    · simp at h
      obtain ⟨-, rfl⟩ := h
      simp
    · rename_i k ts1
      split at h
      · simp at h
      · rename_i w ts2 h2
        have h2l := emailParse_length h2
        have := ih ts2 (by simp at hts; omega) _ h
        simp
        omega
    · simp at h

/-- The batch-map loop leaves a strictly shorter stream on success. -/
theorem parseEmailMapLoop_length {m v : VecMap String ImportEmail}
    {ts rest : List Token} (h : parseEmailMapLoop m ts = .ok (v, rest)) :
    rest.length < ts.length :=
  parseEmailMapLoop_length_aux ts.length ts le_rfl m h

/-- `parseEmailMap` leaves a strictly shorter stream on success. -/
theorem parseEmailMap_length {v : VecMap String ImportEmail}
    {ts rest : List Token} (h : parseEmailMap ts = .ok (v, rest)) :
    rest.length < ts.length := by
  unfold parseEmailMap at h
  split at h
  · simp at h
  · rename_i t ts1 h1
    split at h
    · simp at h
    · exact lt_trans (parseEmailMapLoop_length h) (next_token_length h1)

/-- The per-key step of `ImportEmailRequest::parse` (import.rs lines
101-116): one arm of the top-level key dispatch. -/
def ImportEmailRequest.parseField (st : ImportEmailRequest)
    (key : RequestProperty) (ts : List Token) : PResult ImportEmailRequest :=
  match reqFieldOfKey key with
  | .accountId =>
    match next_token ts with
    | .error e => .error e
    | .ok (t, ts1) =>
      match t.unwrap_string "accountId" with
      | .error e => .error e
      | .ok s => .ok ({ st with account_id := ⟨s⟩ }, ts1)
  | .ifInState =>
    match next_token ts with
    | .error e => .error e
    | .ok (t, ts1) =>
      match t.unwrap_string_or_null "ifInState" with
      | .error e => .error e
      | .ok s => .ok ({ st with if_in_state := s.map (⟨·⟩) }, ts1)
  | .emails =>
    match parseEmailMap ts with
    | .error e => .error e
    | .ok (m, ts1) => .ok ({ st with emails := m }, ts1)
  | .unknown =>
    match skip_token ts with
    | .error e => .error e
    | .ok (_, ts1) => .ok (st, ts1)

/-- `ImportEmailRequest.parseField` leaves a strictly shorter stream on
success. -/
theorem requestParseField_length {st st' : ImportEmailRequest}
    {key : RequestProperty} {ts rest : List Token}
    (h : ImportEmailRequest.parseField st key ts = .ok (st', rest)) :
    rest.length < ts.length := by
  unfold ImportEmailRequest.parseField at h
  split at h <;> repeat' split at h
  all_goals
    solve
      | simp at h
      | (simp at h
         obtain ⟨-, rfl⟩ := h
         solve
           | exact next_token_length (by assumption)
           | exact parseEmailMap_length (by assumption)
           | exact skip_token_length (by assumption))

/-- The `while let Some(key) = parser.next_dict_key::<RequestProperty>()`
loop of `ImportEmailRequest::parse` (import.rs lines 100-117). -/
def ImportEmailRequest.parseLoop (st : ImportEmailRequest)
    (ts : List Token) : PResult ImportEmailRequest :=
  match h1 : next_dict_key ts with
  | .error e => .error e
  | .ok (none, ts1) => .ok (st, ts1)
  | .ok (some key, ts1) =>
    match h2 : ImportEmailRequest.parseField st key ts1 with
    | .error e => .error e
    | .ok (st', ts2) => ImportEmailRequest.parseLoop st' ts2
termination_by ts.length
decreasing_by
  exact lt_trans (requestParseField_length h2)
    (next_dict_key_length h1)

/-- `ImportEmailRequest::parse` (import.rs lines 85-121): the defaults for
every field, the opening-delimiter assertion, then the key-dispatch loop. -/
def ImportEmailRequest.parse (ts : List Token) : PResult ImportEmailRequest :=
  let st : ImportEmailRequest :=
    { account_id := default
      if_in_state := none
      emails := VecMap.new }
  match next_token ts with
  | .error e => .error e
  | .ok (t, ts1) =>
    match t.assert_dict_start with
    | .error e => .error e
    | .ok _ => ImportEmailRequest.parseLoop st ts1

/-- A raw key whose characters all pack faithfully into base-256 positions:
no NUL and single-byte code points.  Every JMAP field name satisfies it. -/
def validKeyChars (s : String) : Prop :=
  ∀ c ∈ s.data, 0 < c.toNat ∧ c.toNat < 256

instance (s : String) : Decidable (validKeyChars s) := by
  unfold validKeyChars
  infer_instance

/-- `Char.toNat` is injective. -/
theorem char_toNat_inj : Function.Injective Char.toNat := by
  intro a b h
  exact Char.ext (UInt32.ext (by simpa [Char.toNat] using h))

/-- The little-endian base-256 packing is injective on digit lists with no
zero digit (no padding ambiguity) and every digit below 256. -/
theorem leVal_inj :
    ∀ {l1 l2 : List Nat}, (∀ b ∈ l1, 0 < b ∧ b < 256) →
      (∀ b ∈ l2, 0 < b ∧ b < 256) → leVal l1 = leVal l2 → l1 = l2 := by
  intro l1
  induction l1 with
  | nil =>
    intro l2 h1 h2 h
    cases l2 with
    | nil => rfl
    | cons b bs =>
      exfalso
      simp [leVal] at h
      have hb := h2 b (by simp)
      omega
  | cons a as ih =>
    intro l2 h1 h2 h
    cases l2 with
    | nil =>
      exfalso
      simp [leVal] at h
      have ha := h1 a (by simp)
      omega
    | cons b bs =>
      simp only [leVal] at h
      have ha := h1 a (by simp)
      have hb := h2 b (by simp)
      have hab : a = b ∧ leVal as = leVal bs := by constructor <;> omega
      have htail : as = bs :=
        ih (fun x hx => h1 x (by simp [hx])) (fun x hx => h2 x (by simp [hx]))
          hab.2
      simp [hab.1, htail]

/-- On faithfully-packed keys, equal hashes with a short (≤ 15 characters)
reference name force equal strings: the hashed comparison agrees with
string comparison. -/
theorem keyHash_eq_name {s t : String} (hs : validKeyChars s)
    (ht : validKeyChars t) (hlen : t.data.length < 16)
    (h : keyHash s = keyHash t) : s = t := by
  have hdig : ∀ (u : String), validKeyChars u →
      ∀ b ∈ (u.data.take 16).map Char.toNat, 0 < b ∧ b < 256 := by
    intro u hu b hb
    obtain ⟨c, hc, rfl⟩ := List.mem_map.1 hb
    exact hu c (List.take_subset 16 u.data hc)
  have hmap := leVal_inj (hdig s hs) (hdig t ht) h
  have htake : s.data.take 16 = t.data.take 16 :=
    List.map_injective_iff.2 char_toNat_inj hmap
  have httake : t.data.take 16 = t.data :=
    List.take_of_length_le (by omega)
  have hslen : s.data.length < 16 := by
    have := congrArg List.length htake
    simp only [List.length_take] at this
    omega
  have hstake : s.data.take 16 = s.data :=
    List.take_of_length_le (by omega)
  have : s.data = t.data := by rw [← hstake, ← httake, htake]
  cases s; cases t
  exact congrArg String.mk (by simpa using this)

/-- The hash of a faithfully-packed key equals the hash of a short concrete
field name exactly when the strings are equal. -/
theorem keyHash_eq_name_iff {s t : String} (hs : validKeyChars s)
    (ht : validKeyChars t) (hlen : t.data.length < 16) :
    keyHash s = keyHash t ↔ s = t :=
  ⟨keyHash_eq_name hs ht hlen, fun h => by rw [h]⟩

/-- The base name produced by stripping the reference marker still has
faithfully-packed characters. -/
theorem validKeyChars_splitRefMarker {s : String} (hs : validKeyChars s) :
    validKeyChars (splitRefMarker s).1 := by
  unfold splitRefMarker
  split
  · intro c hc
    exact hs c (List.take_subset _ s.data hc)
  · exact hs

/-- Modelled from the spec: the property names a `ResultObject` can carry
(`types::property::Property`); only the `Id` property is consulted by this
file, every other property is represented by its name. -/
inductive Property where
  | id
  | other (name : String)
deriving DecidableEq, Repr

/-- Modelled from the spec: the property value model (`types::value::Value`)
of a `ResultObject`; the only shape consulted here is the id-carrying
constructor, recognized by `as_id`. -/
inductive Value where
  | id (i : Id)
  | text (s : String)
  | null
deriving DecidableEq, Repr

/-- `Value::as_id`: the id when the value holds one. -/
def Value.as_id : Value → Option Id
  | .id i => some i
  | _ => none

/-- Modelled from the spec: `object::Object` — a `ResultObject` as an
ordered map of properties. -/
structure Object where
  properties : VecMap Property Value
deriving DecidableEq, Repr

/-- `Object::get`: a property's value, the null value when absent. -/
def Object.get (o : Object) (p : Property) : Value :=
  (o.properties.get p).getD .null

/-- Modelled from the spec: `error::set::SetError` — the per-item
`ErrorObject` of the failure table; opaque to this file. -/
structure SetError where
  description : String
deriving DecidableEq, Repr

/-- Modelled from the spec: `types::state::StateChange` — the change
notification record; opaque to this file (it is never serialized). -/
structure StateChange where
  change : String
deriving DecidableEq, Repr

/-- `ImportEmailResponse` (import.rs lines 61-83). -/
structure ImportEmailResponse where
  account_id : Id
  old_state : Option State
  new_state : State
  created : VecMap String Object
  not_created : VecMap String SetError
  state_change : Option StateChange
deriving DecidableEq, Repr

/-- One serialized response field's payload. -/
inductive JField where
  | id (i : Id)
  | state (s : State)
  | objectMap (m : VecMap String Object)
  | errorMap (m : VecMap String SetError)
deriving DecidableEq, Repr

/-- Serialization of `ImportEmailResponse`, following its serde attributes
(import.rs lines 61-83) and the spec's field-suppression rule (§6): fields
in declaration order under their renamed keys; `oldState` is skipped when
unset, `created`/`notCreated` are skipped when empty, and `state_change`
carries `#[serde(skip)]` so it is never emitted. -/
def ImportEmailResponse.serialize (r : ImportEmailResponse) :
    List (String × JField) :=
  [("accountId", JField.id r.account_id)]
    ++ (match r.old_state with
        | some s => [("oldState", JField.state s)]
        | none => [])
    ++ [("newState", JField.state r.new_state)]
    ++ (if r.created.is_empty then []
        else [("created", JField.objectMap r.created)])
    ++ (if r.not_created.is_empty then []
        else [("notCreated", JField.errorMap r.not_created)])

/-- Modelled from the spec (§4.5): the outer `Response` as consulted by this
file — the process-level "newly created ids" index mapping client creation
ids to externally-visible ids. -/
structure Response where
  created_ids : VecMap String Id
deriving DecidableEq, Repr

/-- `ImportEmailResponse::update_created_ids` (import.rs lines 171-179):
for each entry of `created`, in stored order, when the object's `Id`
property holds an id, record creation id → id in the outer response's
index. -/
def ImportEmailResponse.update_created_ids (r : ImportEmailResponse)
    (response : Response) : Response :=
  { response with
    created_ids :=
      r.created.entries.foldl
        (fun acc e =>
          match (e.2.get Property.id).as_id with
          | some i => acc.insert e.1 i
          | none => acc)
        response.created_ids }

/-- The creation-id → id pairs that `update_created_ids` extracts, one per
`created` entry whose `Id` property holds an id, in stored order. -/
def createdIdPairs (r : ImportEmailResponse) : List (String × Id) :=
  r.created.entries.filterMap
    (fun e => ((e.2.get Property.id).as_id).map (fun i => (e.1, i)))

/-- Insert a list of pairs left to right. -/
def VecMap.insertAll {K V : Type} [DecidableEq K] (m : VecMap K V)
    (l : List (K × V)) : VecMap K V :=
  l.foldl (fun acc e => acc.insert e.1 e.2) m

/-- Left fold of keyed insertion over id-extracting entries equals inserting
the extracted (creation id, id) pairs in order. -/
theorem foldl_insert_filterMap (l : List (String × Object)) :
    ∀ (m : VecMap String Id),
      l.foldl
        (fun acc e =>
          match (e.2.get Property.id).as_id with
          | some i => acc.insert e.1 i
          | none => acc)
        m =
      VecMap.insertAll m
        (l.filterMap
          (fun e => ((e.2.get Property.id).as_id).map (fun i => (e.1, i)))) := by
  induction l with
  | nil => intro m; simp [VecMap.insertAll]
  | cons e l ih =>
    intro m
    rcases hid : (e.2.get Property.id).as_id with _ | i <;>
      simp [List.foldl_cons, hid, ih, VecMap.insertAll]

/-- C9: parsing the empty item object `{}` succeeds and yields the
defaults — default `blob_id`, `mailbox_ids` as the value form of the empty
list, empty `keywords`, unset `received_at`; no required-field check rejects
a missing `blobId` or `mailboxIds`. -/
theorem C9_empty_item_defaults :
    ImportEmail.parse [.dictStart, .dictEnd] =
      .ok ({ blob_id := default, mailbox_ids := .Value [], keywords := [],
             received_at := none }, []) := by
  simp [ImportEmail.parse, ImportEmail.parseLoop, next_token,
        Token.assert_dict_start, next_dict_key]

/-- C10: an explicit `null` for the optional fields `ifInState` and
`receivedAt` parses to the unset value, while `null` (or any non-string
token) for `accountId` or `blobId` is a typed parse failure that aborts the
whole request. -/
theorem C10_null_handling :
    (ImportEmailRequest.parse [.dictStart, .str "ifInState", .null, .dictEnd] =
       .ok ({ account_id := default, if_in_state := none,
              emails := VecMap.new }, [])) ∧
    (ImportEmail.parse [.dictStart, .str "receivedAt", .null, .dictEnd] =
       .ok ({ blob_id := default, mailbox_ids := .Value [], keywords := [],
              received_at := none }, [])) ∧
    (ImportEmailRequest.parse [.dictStart, .str "accountId", .null, .dictEnd] =
       .error (.invalidType "accountId")) ∧
    (ImportEmail.parse [.dictStart, .str "blobId", .null, .dictEnd] =
       .error (.invalidType "blobId")) ∧
    (∀ (st : ImportEmailRequest) (t : Token) (ts : List Token),
       (∀ s, t ≠ .str s) →
       ImportEmailRequest.parseField st (RequestProperty.ofString "accountId")
         (t :: ts) = .error (.invalidType "accountId")) ∧
    (∀ (st : ImportEmail) (t : Token) (ts : List Token),
       (∀ s, t ≠ .str s) →
       ImportEmail.parseField st (RequestProperty.ofString "blobId")
         (t :: ts) = .error (.invalidType "blobId")) := by
  refine ⟨?_, ?_, ?_, ?_, ?_, ?_⟩
  · simp [ImportEmailRequest.parse, ImportEmailRequest.parseLoop,
          ImportEmailRequest.parseField, next_token, Token.assert_dict_start,
          next_dict_key, RequestProperty.ofString, splitRefMarker, keyHash,
          leVal, reqFieldOfKey, Token.unwrap_string_or_null]
  · simp [ImportEmail.parse, ImportEmail.parseLoop, ImportEmail.parseField,
          next_token, Token.assert_dict_start, next_dict_key,
          RequestProperty.ofString, splitRefMarker, keyHash, leVal,
          emailFieldOfKey, Token.unwrap_string_or_null]
  · simp [ImportEmailRequest.parse, ImportEmailRequest.parseLoop,
          ImportEmailRequest.parseField, next_token, Token.assert_dict_start,
          next_dict_key, RequestProperty.ofString, splitRefMarker, keyHash,
          leVal, reqFieldOfKey, Token.unwrap_string]
  · simp [ImportEmail.parse, ImportEmail.parseLoop, ImportEmail.parseField,
          next_token, Token.assert_dict_start, next_dict_key,
          RequestProperty.ofString, splitRefMarker, keyHash, leVal,
          emailFieldOfKey, Token.unwrap_string]
  · intro st t ts ht
    have hk : reqFieldOfKey (RequestProperty.ofString "accountId") =
        .accountId := by decide
    cases t with
    | str s => exact absurd rfl (ht s)
    | _ =>
      simp [ImportEmailRequest.parseField, hk, next_token,
            Token.unwrap_string]
  · intro st t ts ht
    have hk : emailFieldOfKey (RequestProperty.ofString "blobId") =
        .blobId := by decide
    cases t with
    | str s => exact absurd rfl (ht s)
    | _ =>
      simp [ImportEmail.parseField, hk, next_token, Token.unwrap_string]

/-- C10 witness: a concrete non-string token for `accountId` is rejected. -/
theorem C10_null_handling_witness :
    (∀ s, Token.num 7 ≠ Token.str s) ∧
    ImportEmailRequest.parseField
      { account_id := default, if_in_state := none, emails := VecMap.new }
      (RequestProperty.ofString "accountId") [.num 7, .dictEnd] =
      .error (.invalidType "accountId") :=
  ⟨(fun _ h => nomatch h),
   C10_null_handling.2.2.2.2.1 _ (.num 7) [.dictEnd] (fun _ h => nomatch h)⟩

/-- C6: a token stream whose first token is not the object-opening delimiter
makes both `ImportEmailRequest::parse` and `ImportEmail::parse` fail with
the typed delimiter error (and an empty stream fails at end of input); the
error return carries no partially constructed object. -/
theorem C6_missing_dict_start :
    (∀ (t : Token) (ts : List Token), t ≠ .dictStart →
       ImportEmailRequest.parse (t :: ts) = .error .expectedDictStart ∧
       ImportEmail.parse (t :: ts) = .error .expectedDictStart) ∧
    ImportEmailRequest.parse [] = .error .unexpectedEnd ∧
    ImportEmail.parse [] = .error .unexpectedEnd := by
  refine ⟨?_, by simp [ImportEmailRequest.parse, next_token],
          by simp [ImportEmail.parse, next_token]⟩
  intro t ts ht
  constructor <;>
    cases t <;>
      first
        | exact absurd rfl ht
        | simp [ImportEmailRequest.parse, ImportEmail.parse, next_token,
                Token.assert_dict_start]

/-- C6 witness: a stream opening with `null` is rejected by both parsers. -/
theorem C6_missing_dict_start_witness :
    Token.null ≠ Token.dictStart ∧
    ImportEmailRequest.parse [Token.null] = .error .expectedDictStart ∧
    ImportEmail.parse [Token.null] = .error .expectedDictStart :=
  ⟨by decide,
   (C6_missing_dict_start.1 .null [] (by decide)).1,
   (C6_missing_dict_start.1 .null [] (by decide)).2⟩

/-- Unfolding: the top-level key loop on a stream starting with a key. -/
theorem requestParseLoop_cons_key (st : ImportEmailRequest)
    (s : String) (ts1 : List Token) :
    ImportEmailRequest.parseLoop st (.str s :: ts1) =
      match ImportEmailRequest.parseField st (RequestProperty.ofString s) ts1
        with
      | .error e => .error e
      | .ok (st', ts2) => ImportEmailRequest.parseLoop st' ts2 := by
  rw [ImportEmailRequest.parseLoop.eq_def]
  simp only [next_dict_key]
  split <;> rename_i heq <;> rw [heq]

/-- Unfolding: the top-level key loop at the closing delimiter. -/
theorem requestParseLoop_dictEnd (st : ImportEmailRequest)
    (ts : List Token) :
    ImportEmailRequest.parseLoop st (.dictEnd :: ts) = .ok (st, ts) := by
  rw [ImportEmailRequest.parseLoop.eq_def]
  simp [next_dict_key]

/-- Unfolding: the item-object key loop on a stream starting with a key. -/
theorem emailParseLoop_cons_key (st : ImportEmail) (s : String)
    (ts1 : List Token) :
    ImportEmail.parseLoop st (.str s :: ts1) =
      match ImportEmail.parseField st (RequestProperty.ofString s) ts1 with
      | .error e => .error e
      | .ok (st', ts2) => ImportEmail.parseLoop st' ts2 := by
  rw [ImportEmail.parseLoop.eq_def]
  simp only [next_dict_key]
  split <;> rename_i heq <;> rw [heq]

/-- Unfolding: the item-object key loop at the closing delimiter. -/
theorem emailParseLoop_dictEnd (st : ImportEmail) (ts : List Token) :
    ImportEmail.parseLoop st (.dictEnd :: ts) = .ok (st, ts) := by
  rw [ImportEmail.parseLoop.eq_def]
  simp [next_dict_key]

/-- C1 counterexample: the request object `{"accountId#ref": "X"}` carries
the reference marker on a field that does not support the reference form,
yet parsing succeeds with the key skipped — refuting the claimed typed
parse failure. -/
theorem C1_counterexample :
    ImportEmailRequest.parse
      [.dictStart, .str "accountId#ref", .str "X", .dictEnd] =
      .ok ({ account_id := default, if_in_state := none,
             emails := VecMap.new }, []) := by
  simp [ImportEmailRequest.parse, ImportEmailRequest.parseLoop,
        ImportEmailRequest.parseField, next_token, Token.assert_dict_start,
        next_dict_key, RequestProperty.ofString, splitRefMarker, keyHash,
        leVal, reqFieldOfKey, skip_token, skipBalanced, Token.isOpen,
        Token.isClose]

/-- C1 (amended): a key carrying the reference marker on a field that does
not support the reference form matches no dispatch arm (the `is_ref` guard
fails): it is routed to the skip decoder like an unknown key, its value is
consumed and discarded, and parsing continues with the object unchanged —
no parse failure is raised. -/
theorem C1_ref_marker_skipped :
    ∀ (key : RequestProperty), key.is_ref = true →
      reqFieldOfKey key = .unknown ∧
      (key.hash ≠ 0x736449786f626c69616d → emailFieldOfKey key = .unknown) ∧
      (∀ (st : ImportEmailRequest) (ts rest : List Token),
         skip_token ts = .ok ((), rest) →
         ImportEmailRequest.parseField st key ts = .ok (st, rest)) ∧
      (∀ (st : ImportEmail) (ts rest : List Token),
         key.hash ≠ 0x736449786f626c69616d →
         skip_token ts = .ok ((), rest) →
         ImportEmail.parseField st key ts = .ok (st, rest)) := by
  intro key href
  have hr : reqFieldOfKey key = .unknown := by
    simp [reqFieldOfKey, href]
  have he : key.hash ≠ 0x736449786f626c69616d →
      emailFieldOfKey key = .unknown := by
    intro hne
    simp [emailFieldOfKey, href, hne]
  refine ⟨hr, he, ?_, ?_⟩
  · intro st ts rest hskip
    simp [ImportEmailRequest.parseField, hr, hskip]
  · intro st ts rest hne hskip
    simp [ImportEmail.parseField, he hne, hskip]

/-- C1 witness: the key `accountId#ref` (reference marker on a
non-reference field) is skipped by the top-level field dispatch. -/
theorem C1_ref_marker_skipped_witness :
    (RequestProperty.ofString "accountId#ref").is_ref = true ∧
    skip_token [Token.str "X"] = .ok ((), []) ∧
    ImportEmailRequest.parseField
      { account_id := default, if_in_state := none, emails := VecMap.new }
      (RequestProperty.ofString "accountId#ref") [.str "X"] =
      .ok ({ account_id := default, if_in_state := none,
             emails := VecMap.new }, []) :=
  ⟨by decide, by decide,
   (C1_ref_marker_skipped (RequestProperty.ofString "accountId#ref")
       (by decide)).2.2.1 _ [.str "X"] [] (by decide)⟩

/-- C2 counterexample: an item object containing both `"mailboxIds"` and
`"mailboxIds#ref"` parses successfully — the later form wins — instead of
failing with a parse error as the claim states. -/
theorem C2_counterexample :
    ImportEmail.parse
      [.dictStart,
       .str "mailboxIds", .arrayStart, .str "A", .arrayEnd,
       .str "mailboxIds#ref", .dictStart, .str "resultOf", .str "c0",
       .str "path", .str "p", .dictEnd,
       .dictEnd] =
      .ok ({ blob_id := default,
             mailbox_ids := .Reference ⟨"c0", "p"⟩,
             keywords := [], received_at := none }, []) := by
  simp [ImportEmail.parse, ImportEmail.parseLoop, ImportEmail.parseField,
        next_token, Token.assert_dict_start, next_dict_key,
        RequestProperty.ofString, splitRefMarker, keyHash, leVal,
        emailFieldOfKey, parseStringList, parseStringList.parseStringListTail,
        ResultReference.parse, ResultReference.parse.parseFieldsFrom,
        parseIdOrCreation]

/-- C2 (amended): when both the value form and the reference form of
`mailboxIds` are present in one item object, the object is accepted and the
later occurrence overwrites the earlier — no parse error is raised. -/
theorem C2_both_forms_last_wins :
    ∀ (st : ImportEmail) (ts1 ts2 ts3 : List Token) (l : List String)
      (rr : ResultReference),
      parseStringList ts1 = .ok (l, .str "mailboxIds#ref" :: ts2) →
      ResultReference.parse ts2 = .ok (rr, ts3) →
      ImportEmail.parseLoop st (.str "mailboxIds" :: ts1) =
        ImportEmail.parseLoop { st with mailbox_ids := .Reference rr } ts3 := by
  intro st ts1 ts2 ts3 l rr h1 h2
  have hk1 : emailFieldOfKey (RequestProperty.ofString "mailboxIds") =
      .mailboxIdsValue := by decide
  have hk2 : emailFieldOfKey (RequestProperty.ofString "mailboxIds#ref") =
      .mailboxIdsRef := by decide
  rw [emailParseLoop_cons_key]
  simp only [ImportEmail.parseField, hk1, h1]
  rw [emailParseLoop_cons_key]
  simp only [ImportEmail.parseField, hk2, h2]

/-- C2 witness: both forms in sequence — the loop continues with the
reference, overwriting the earlier value form. -/
theorem C2_both_forms_last_wins_witness :
    parseStringList
        [.arrayStart, .arrayEnd, .str "mailboxIds#ref", .dictStart,
         .dictEnd, .dictEnd] =
      .ok ([], [.str "mailboxIds#ref", .dictStart, .dictEnd, .dictEnd]) ∧
    ResultReference.parse [.dictStart, .dictEnd, .dictEnd] =
      .ok (⟨"", ""⟩, [.dictEnd]) ∧
    ImportEmail.parseLoop
        { blob_id := default, mailbox_ids := .Value [], keywords := [],
          received_at := none }
        [.str "mailboxIds", .arrayStart, .arrayEnd, .str "mailboxIds#ref",
         .dictStart, .dictEnd, .dictEnd] =
      ImportEmail.parseLoop
        { blob_id := default, mailbox_ids := .Reference ⟨"", ""⟩,
          keywords := [], received_at := none }
        [.dictEnd] :=
  ⟨by decide, by decide,
   C2_both_forms_last_wins _
     [.arrayStart, .arrayEnd, .str "mailboxIds#ref", .dictStart, .dictEnd,
      .dictEnd]
     [.dictStart, .dictEnd, .dictEnd] [.dictEnd] [] ⟨"", ""⟩
     (by decide) (by decide)⟩

/-- C3: an unrecognized top-level key never causes a parse failure: the
loop skips (consumes and discards) its value and parses exactly as the same
stream without the key and its value — the resulting request is
identical. -/
theorem C3_unknown_key_skipped :
    ∀ (s : String) (st : ImportEmailRequest) (ts1 rest : List Token),
      validKeyChars s →
      (splitRefMarker s).1 ≠ "accountId" →
      (splitRefMarker s).1 ≠ "ifInState" →
      (splitRefMarker s).1 ≠ "emails" →
      skip_token ts1 = .ok ((), rest) →
      ImportEmailRequest.parseLoop st (.str s :: ts1) =
        ImportEmailRequest.parseLoop st rest := by
  intro s st ts1 rest hv h1 h2 h3 hskip
  have hb := validKeyChars_splitRefMarker hv
  have i1 : keyHash (splitRefMarker s).1 = keyHash "accountId" ↔
      (splitRefMarker s).1 = "accountId" :=
    keyHash_eq_name_iff hb (by decide) (by decide)
  have i2 : keyHash (splitRefMarker s).1 = keyHash "ifInState" ↔
      (splitRefMarker s).1 = "ifInState" :=
    keyHash_eq_name_iff hb (by decide) (by decide)
  have i3 : keyHash (splitRefMarker s).1 = keyHash "emails" ↔
      (splitRefMarker s).1 = "emails" :=
    keyHash_eq_name_iff hb (by decide) (by decide)
  have hu : reqFieldOfKey (RequestProperty.ofString s) = .unknown := by
    unfold reqFieldOfKey RequestProperty.ofString
    simp only
      [show (0x006449746e756f636361 : Nat) = keyHash "accountId" by decide,
       show (0x0065746174536e496669 : Nat) = keyHash "ifInState" by decide,
       show (0x736c69616d65 : Nat) = keyHash "emails" by decide,
       i1, i2, i3]
    simp [h1, h2, h3]
  rw [requestParseLoop_cons_key]
  simp only [ImportEmailRequest.parseField, hu, hskip]

/-- C3 witness: a concrete unrecognized key with a scalar value is skipped
and the loop continues identically. -/
theorem C3_unknown_key_skipped_witness :
    validKeyChars "futureField" ∧
    skip_token [Token.num 1, Token.dictEnd] = .ok ((), [Token.dictEnd]) ∧
    ImportEmailRequest.parseLoop
        { account_id := default, if_in_state := none, emails := VecMap.new }
        [.str "futureField", .num 1, .dictEnd] =
      ImportEmailRequest.parseLoop
        { account_id := default, if_in_state := none, emails := VecMap.new }
        [.dictEnd] :=
  ⟨by decide, by decide,
   C3_unknown_key_skipped "futureField" _ [.num 1, .dictEnd] [.dictEnd]
     (by decide) (by decide) (by decide) (by decide) (by decide)⟩

/-- C4: the hashed key dispatch is observably equivalent to a string-keyed
match: for every raw key whose characters pack faithfully into base-256
positions (no NUL, single-byte code points — true of every JMAP field
name), the branch selected from the packed `key.hash[0]` plus the `is_ref`
flag is exactly the branch that string comparison of the raw name selects,
in both parse loops. -/
theorem C4_hash_dispatch_equiv_string :
    ∀ (s : String), validKeyChars s →
      reqFieldOfKey (RequestProperty.ofString s) = reqFieldOfName s ∧
      emailFieldOfKey (RequestProperty.ofString s) = emailFieldOfName s := by
  intro s hv
  have hb := validKeyChars_splitRefMarker hv
  have i1 : keyHash (splitRefMarker s).1 = keyHash "accountId" ↔
      (splitRefMarker s).1 = "accountId" :=
    keyHash_eq_name_iff hb (by decide) (by decide)
  have i2 : keyHash (splitRefMarker s).1 = keyHash "ifInState" ↔
      (splitRefMarker s).1 = "ifInState" :=
    keyHash_eq_name_iff hb (by decide) (by decide)
  have i3 : keyHash (splitRefMarker s).1 = keyHash "emails" ↔
      (splitRefMarker s).1 = "emails" :=
    keyHash_eq_name_iff hb (by decide) (by decide)
  have i4 : keyHash (splitRefMarker s).1 = keyHash "blobId" ↔
      (splitRefMarker s).1 = "blobId" :=
    keyHash_eq_name_iff hb (by decide) (by decide)
  have i5 : keyHash (splitRefMarker s).1 = keyHash "mailboxIds" ↔
      (splitRefMarker s).1 = "mailboxIds" :=
    keyHash_eq_name_iff hb (by decide) (by decide)
  have i6 : keyHash (splitRefMarker s).1 = keyHash "keywords" ↔
      (splitRefMarker s).1 = "keywords" :=
    keyHash_eq_name_iff hb (by decide) (by decide)
  have i7 : keyHash (splitRefMarker s).1 = keyHash "receivedAt" ↔
      (splitRefMarker s).1 = "receivedAt" :=
    keyHash_eq_name_iff hb (by decide) (by decide)
  constructor
  · unfold reqFieldOfKey reqFieldOfName RequestProperty.ofString
    simp only
      [show (0x006449746e756f636361 : Nat) = keyHash "accountId" by decide,
       show (0x0065746174536e496669 : Nat) = keyHash "ifInState" by decide,
       show (0x736c69616d65 : Nat) = keyHash "emails" by decide,
       i1, i2, i3]
  · unfold emailFieldOfKey emailFieldOfName RequestProperty.ofString
    simp only
      [show (0x6449626f6c62 : Nat) = keyHash "blobId" by decide,
       show (0x736449786f626c69616d : Nat) = keyHash "mailboxIds" by decide,
       show (0x7364726f7779656b : Nat) = keyHash "keywords" by decide,
       show (0x74416465766965636572 : Nat) = keyHash "receivedAt" by decide,
       i4, i5, i6, i7]

/-- C4 witness: the key `mailboxIds#ref` is routed identically by the
hashed and the string-keyed dispatch. -/
theorem C4_hash_dispatch_equiv_string_witness :
    validKeyChars "mailboxIds#ref" ∧
    reqFieldOfKey (RequestProperty.ofString "mailboxIds#ref") =
      reqFieldOfName "mailboxIds#ref" ∧
    emailFieldOfKey (RequestProperty.ofString "mailboxIds#ref") =
      emailFieldOfName "mailboxIds#ref" :=
  ⟨by decide,
   (C4_hash_dispatch_equiv_string "mailboxIds#ref" (by decide)).1,
   (C4_hash_dispatch_equiv_string "mailboxIds#ref" (by decide)).2⟩

/-- C5: the value form of `mailboxIds` is decoded as `MaybeReference.Value`
holding the list of container references while the reference form
`mailboxIds#ref` is decoded as `MaybeReference.Reference` holding a
`ResultReference` — two different decoders producing the two distinct
constructors of the sum type. -/
theorem C5_mailbox_forms_distinct_decoders :
    (∀ (st : ImportEmail) (ts : List Token) (l : List String)
       (rest : List Token),
       parseStringList ts = .ok (l, rest) →
       ImportEmail.parseField st (RequestProperty.ofString "mailboxIds") ts =
         .ok ({ st with mailbox_ids := .Value (l.map parseIdOrCreation) },
           rest)) ∧
    (∀ (st : ImportEmail) (ts : List Token) (rr : ResultReference)
       (rest : List Token),
       ResultReference.parse ts = .ok (rr, rest) →
       ImportEmail.parseField st (RequestProperty.ofString "mailboxIds#ref")
           ts =
         .ok ({ st with mailbox_ids := .Reference rr }, rest)) ∧
    (∀ (v : List (MaybeReference Id String)) (r : ResultReference),
       (MaybeReference.Value v :
           MaybeReference (List (MaybeReference Id String)) ResultReference) ≠
         .Reference r) := by
  refine ⟨?_, ?_, ?_⟩
  · intro st ts l rest h
    have hk : emailFieldOfKey (RequestProperty.ofString "mailboxIds") =
        .mailboxIdsValue := by decide
    simp [ImportEmail.parseField, hk, h]
  · intro st ts rr rest h
    have hk : emailFieldOfKey (RequestProperty.ofString "mailboxIds#ref") =
        .mailboxIdsRef := by decide
    simp [ImportEmail.parseField, hk, h]
  · intro v r
    simp

/-- C5 witness: concrete decodings of the two forms of `mailboxIds`. -/
theorem C5_mailbox_forms_distinct_decoders_witness :
    parseStringList [.arrayStart, .str "M1", .arrayEnd] =
      .ok (["M1"], []) ∧
    ImportEmail.parseField
        { blob_id := default, mailbox_ids := .Value [], keywords := [],
          received_at := none }
        (RequestProperty.ofString "mailboxIds")
        [.arrayStart, .str "M1", .arrayEnd] =
      .ok ({ blob_id := default,
             mailbox_ids := .Value [MaybeReference.Value ⟨"M1"⟩],
             keywords := [], received_at := none }, []) ∧
    ResultReference.parse [.dictStart, .dictEnd] = .ok (⟨"", ""⟩, []) ∧
    ImportEmail.parseField
        { blob_id := default, mailbox_ids := .Value [], keywords := [],
          received_at := none }
        (RequestProperty.ofString "mailboxIds#ref") [.dictStart, .dictEnd] =
      .ok ({ blob_id := default, mailbox_ids := .Reference ⟨"", ""⟩,
             keywords := [], received_at := none }, []) :=
  ⟨by decide,
   C5_mailbox_forms_distinct_decoders.1 _ _ ["M1"] [] (by decide),
   by decide,
   C5_mailbox_forms_distinct_decoders.2.1 _ _ ⟨"", ""⟩ [] (by decide)⟩

/-- C7: serialization always emits `accountId` and `newState`, omits
`oldState` when unset, omits `created`/`notCreated` when empty (never as an
explicit empty collection or null), and emits no other field — in
particular never the change notification. -/
theorem C7_response_field_suppression :
    ∀ (r : ImportEmailResponse),
      ("accountId", JField.id r.account_id) ∈ r.serialize ∧
      ("newState", JField.state r.new_state) ∈ r.serialize ∧
      ("oldState" ∈ r.serialize.map Prod.fst ↔ r.old_state ≠ none) ∧
      ("created" ∈ r.serialize.map Prod.fst ↔
        r.created.is_empty = false) ∧
      ("notCreated" ∈ r.serialize.map Prod.fst ↔
        r.not_created.is_empty = false) ∧
      (∀ f ∈ r.serialize,
        f.1 = "accountId" ∨ f.1 = "oldState" ∨ f.1 = "newState" ∨
        f.1 = "created" ∨ f.1 = "notCreated") := by
  intro r
  obtain ⟨aid, old, new, cr, ncr, sc⟩ := r
  cases old <;> cases hcr : cr.is_empty <;> cases hncr : ncr.is_empty <;>
    simp [ImportEmailResponse.serialize, hcr, hncr]

/-- C7 witness: a concrete response's serialization contains `accountId`,
whose key is among the five serialized field names. -/
theorem C7_response_field_suppression_witness :
    ("accountId", JField.id (⟨"a"⟩ : Id)) ∈
      (ImportEmailResponse.mk ⟨"a"⟩ none ⟨"s"⟩ VecMap.new VecMap.new
        none).serialize ∧
    (("accountId", JField.id (⟨"a"⟩ : Id)).1 = "accountId" ∨
      ("accountId", JField.id (⟨"a"⟩ : Id)).1 = "oldState" ∨
      ("accountId", JField.id (⟨"a"⟩ : Id)).1 = "newState" ∨
      ("accountId", JField.id (⟨"a"⟩ : Id)).1 = "created" ∨
      ("accountId", JField.id (⟨"a"⟩ : Id)).1 = "notCreated") :=
  ⟨(C7_response_field_suppression
      (ImportEmailResponse.mk ⟨"a"⟩ none ⟨"s"⟩ VecMap.new VecMap.new
        none)).1,
   (C7_response_field_suppression
      (ImportEmailResponse.mk ⟨"a"⟩ none ⟨"s"⟩ VecMap.new VecMap.new
        none)).2.2.2.2.2 _
     (C7_response_field_suppression
        (ImportEmailResponse.mk ⟨"a"⟩ none ⟨"s"⟩ VecMap.new VecMap.new
          none)).1⟩

/-- C8: `update_created_ids` extends the outer response's created-ids index
by exactly the (creation id → id) pair of every `created` entry whose `Id`
property holds an id value, inserted in the created map's stored order. -/
theorem C8_update_created_ids :
    ∀ (r : ImportEmailResponse) (response : Response),
      r.update_created_ids response =
        ⟨VecMap.insertAll response.created_ids (createdIdPairs r)⟩ := by
  intro r response
  unfold ImportEmailResponse.update_created_ids createdIdPairs
  exact congrArg Response.mk
    (foldl_insert_filterMap r.created.entries response.created_ids)

end MailImport
